import Mathlib

/-!
Shallow embedding of `aiohttp_client_cache/response.py`: the `CachedResponse`
snapshot/replay engine (`postprocess`, `__getstate__`/`__setstate__`, the lazy `content`
property, `reset`, `is_expired`) and the `CachedStreamReader` replay stream.

Byte strings are modelled as `List Nat`, datetimes as `Int` timestamps, and the live
runtime objects an aiohttp response can reference (event loop, transport/protocol,
connection, session, timer, writer task, tracing callbacks) as values of a `Handle`
marker type: only their presence or absence matters to the serialization claims.
-/

namespace AiohttpClientCache

/-- Marker for a live, non-serializable runtime object (event loop, transport/protocol,
connection, session, timer, writer task, tracing callback). Its Python contents are
irrelevant here; only whether such an object is still referenced matters. -/
structure Handle where
  id : Nat
deriving DecidableEq

/-- State of an aiohttp `StreamReader` as used by this repository: an internal byte
buffer and an end-of-feed flag. `limit` is the flow-control limit passed to the
constructor (`CachedStreamReader` passes `len(body)`); it does not affect the read
results modelled here. -/
structure StreamReader where
  limit : Nat
  buffer : List Nat
  eof : Bool
deriving DecidableEq

/-- Model of aiohttp `StreamReader.feed_data`: appends bytes to the buffer. aiohttp
asserts that the stream is not at EOF, so calling it after `feed_eof` is an error. -/
def StreamReader.feed_data (s : StreamReader) (b : List Nat) : Except String StreamReader :=
  if s.eof then Except.error "feed_data after feed_eof"
  else Except.ok { s with buffer := s.buffer ++ b }

/-- The success path of `feed_data` (it provably never fails during
`CachedStreamReader` construction, since the base stream is not at EOF). -/
def StreamReader.feed_data_ok (s : StreamReader) (b : List Nat) : StreamReader :=
  { s with buffer := s.buffer ++ b }

/-- Model of aiohttp `StreamReader.feed_eof`: marks the stream as fully fed. -/
def StreamReader.feed_eof (s : StreamReader) : StreamReader :=
  { s with eof := true }

/-- Model of a full read (`await stream.read()` with no length argument): on a stream
whose EOF has been fed it returns the whole remaining buffer immediately and leaves an
empty buffer behind; on a live stream still awaiting data it would suspend until more
data or EOF arrives, modelled as `none`. -/
def StreamReader.readAll (s : StreamReader) : Option (List Nat × StreamReader) :=
  if s.eof then some (s.buffer, { s with buffer := [] }) else none

/-- Model of aiohttp `StreamReader.is_eof()`: whether `feed_eof` has been called, i.e.
whether the stream reports that all data has arrived. -/
def StreamReader.is_eof (s : StreamReader) : Bool := s.eof

/-- Python `body = body or b''` from `CachedStreamReader.__init__` (response.py line
228): `None` and the empty byte string are falsy, so an absent body is normalized to
empty bytes. -/
def orEmptyBytes : Option (List Nat) → List Nat
  | none => []
  | some b => if b.isEmpty then [] else b

/-- `CachedStreamReader.__init__` (response.py lines 227-232) with each aiohttp call
tracked in the `Except` monad: normalize the body, construct the base `StreamReader`
(`limit=len(body)`, `loop=None`, the protocol a mock with `_reading_paused=False`),
feed the body bytes, then feed EOF. -/
def mkCachedStreamReaderE (body : Option (List Nat)) : Except String StreamReader :=
  let b := orEmptyBytes body
  (StreamReader.feed_data (StreamReader.mk b.length [] false) b).map StreamReader.feed_eof

/-- The `CachedStreamReader` construction, totalized: the same steps as
`mkCachedStreamReaderE` along the success path, which provably always applies
(the two are proved to agree below). -/
def CachedStreamReader (body : Option (List Nat)) : StreamReader :=
  ((StreamReader.mk (orEmptyBytes body).length [] false).feed_data_ok
    (orEmptyBytes body)).feed_eof

/-- The bytes produced by a full read over a freshly constructed replay stream. -/
def freshReadBytes (body : Option (List Nat)) : Option (List Nat) :=
  ((CachedStreamReader body).readAll).map Prod.fst

/-- Possible runtime values of the `expires` attribute of a cached response: `None`, a
datetime (modelled as an integer timestamp), or a malformed non-datetime value (for
example a string coming from corrupt storage), for which a datetime comparison raises
`TypeError`. -/
inductive PyExpires where
  | pyNone : PyExpires
  | dt : Int → PyExpires
  | malformed : String → PyExpires
deriving DecidableEq

/-- The `expires` argument of `postprocess` (`datetime | None`, enforced by the assert
at response.py line 149) as stored into the `expires` attribute. -/
def toExpires : Option Int → PyExpires
  | none => PyExpires.pyNone
  | some t => PyExpires.dt t

/-- The body of the `try` block in `CachedResponse.is_expired` (response.py line 211):
`self.expires is not None and utcnow() > self.expires`. The attribute lookup itself can
raise `AttributeError` (modelled by the `none` input, an instance with no `expires`
attribute at all), and comparing a datetime with a non-datetime raises `TypeError`. -/
def is_expired_try (e : Option PyExpires) (now : Int) : Except String Bool :=
  match e with
  | none => Except.error "AttributeError"
  | some PyExpires.pyNone => Except.ok false
  | some (PyExpires.dt t) => Except.ok (decide (now > t))
  | some (PyExpires.malformed _) => Except.error "TypeError"

/-- `CachedResponse.is_expired` (response.py lines 207-214): evaluate the expiration
condition and, on `AttributeError`/`TypeError`/`ValueError`, consider the response
expired and fetch a new one instead of propagating the failure. -/
def is_expired (e : Option PyExpires) (now : Int) : Bool :=
  match is_expired_try e now with
  | Except.ok b => b
  | Except.error _ => true

/-- `aiohttp.client_reqrep.RequestInfo` as rebuilt by the `request_info` property
(response.py lines 125-132): request URL, method, headers and the real URL. -/
structure ReqInfo where
  url : String
  method : String
  headers : List (String × String)
  real_url : String
deriving DecidableEq

/-- The per-instance attributes of a `CachedResponse` other than `_history`: everything
assigned by `CachedResponse.__init__` (response.py lines 35-90) plus the attributes the
aiohttp base constructor stores from the arguments the subclass forwards (`method`,
`_url`, `_writer`, `_continue`, `_timer`, `_request_info`, `_traces`, `_loop`,
`_session`, `_cache`, `_resolve_charset`), plus the `_encoding` attribute that only
exists once `postprocess` has set it (response.py line 193). `Option Handle` fields
cover both an absent attribute and a stored `None`. The `_cache` dict is always created
by the base constructor and re-created by `__setstate__`, so it carries no field here.
The redirect history lives in `Resp` below so that the record can nest. -/
structure RespCore where
  method : String
  url : String
  writer : Option Handle
  continue100 : Option Handle
  timer : Option Handle
  request_info_attr : Option ReqInfo
  traces : List Handle
  loop : Option Handle
  session : Option Handle
  resolve_charset : Option Handle
  content : Option StreamReader
  created_at : Int
  expires : PyExpires
  last_used : Int
  from_cache : Bool
  headers : List (String × String)
  raw_headers : List (List Nat × List Nat)
  status : Nat
  body : Option (List Nat)
  closed : Bool
  protocol : Option Handle
  connection : Option Handle
  version : String
  reason : String
  cookies : String
  released : Bool
  encoding : Option String
deriving DecidableEq

mutual
/-- A response object: its own attributes plus the `_history` tuple, whose entries are
themselves responses (redirect predecessors). -/
inductive Resp where
  | mk : RespCore → RespList → Resp
/-- The `_history` tuple of a response (a list type of its own so that the mutual
structure supports structural recursion). -/
inductive RespList where
  | nil : RespList
  | cons : Resp → RespList → RespList
end

/-- The non-history attributes of a response. -/
def Resp.core : Resp → RespCore
  | .mk c _ => c

/-- The `_history` tuple of a response. -/
def Resp.history : Resp → RespList
  | .mk _ hs => hs

/-- Python truthiness of the `_history` tuple (`if self._history:`). -/
def RespList.isEmpty : RespList → Bool
  | .nil => true
  | .cons _ _ => false

/-- The history tuple as an ordinary list. -/
def RespList.toList : RespList → List Resp
  | .nil => []
  | .cons r rs => r :: RespList.toList rs

/-- The `content` property getter (response.py lines 197-201): the currently attached
stream if any, otherwise a freshly constructed `CachedStreamReader` over the stored
body. -/
def contentProp (c : RespCore) : StreamReader :=
  match c.content with
  | some s => s
  | none => CachedStreamReader c.body

/-- The `request_info` property (response.py lines 125-132): rebuilt on every access
from the stored method, URL and headers (`real_url` is the URL again); the stored
`_request_info` attribute is never consulted. -/
def request_info (c : RespCore) : ReqInfo :=
  { url := c.url, method := c.method, headers := c.headers, real_url := c.url }

/-- `CachedResponse.reset` (response.py lines 216-218): discard the current stream so
that the next `content` access builds a new one. -/
def resetCore (c : RespCore) : RespCore :=
  { c with content := none }

/-- Model of aiohttp `ClientResponse.read()` as invoked from `postprocess`
(response.py line 152, only reached when `_released` is false): if the body has already
been captured it is returned as-is; otherwise `self.content` (the property) is read to
completion — suspending forever if the stream never reaches EOF, modelled as `none` —
the bytes are stored in `_body`, and, through aiohttp's EOF callback on the stream, the
connection and the writer task are released. -/
def readStep (c : RespCore) : Option RespCore :=
  match c.body with
  | some _ => some c
  | none =>
    match (contentProp c).readAll with
    | none => none
    | some (bs, s') =>
      some { c with body := some bs, content := some s', connection := none, writer := none }

/-- Lines 149-156 of response.py, the non-recursive part of `postprocess`: drain the
body unless the response was already released, swap a replay stream over the captured
bytes in as the content accessor, and record the expiration. -/
def drainCore (e : Option Int) (c : RespCore) : Option RespCore :=
  match (if c.released then some c else readStep c) with
  | none => none
  | some c1 =>
    some { c1 with content := some (CachedStreamReader c1.body), expires := toExpires e }

/-- Model of the base-class `aiohttp.ClientResponse.get_encoding()` called at
response.py line 193: resolves the text encoding from the response headers, falling
back to utf-8. The precise charset-sniffing logic is aiohttp's; what this development
relies on is that the result is a plain string computed from header data alone. -/
def baseGetEncoding (headers : List (String × String)) : String :=
  match headers.lookup "charset" with
  | some enc => enc
  | none => "utf-8"

/-- The `CachedResponse(...)` constructor call applied to a history entry `r` inside
`postprocess` (response.py lines 161-185) combined with `CachedResponse.__init__`
(lines 35-90): every protocol field is copied from the entry (`content=r.content` goes
through the entry's content property), while the cache metadata is freshly initialized
(`created_at`/`last_used` := now, `expires` := None, `from_cache` := True) and no
`_encoding` attribute exists yet. The entry's `_history` is passed through unchanged
and is processed by the entry's own `postprocess` call. -/
def rebuildCore (now : Int) (c : RespCore) : RespCore :=
  { c with
    content := some (contentProp c)
    created_at := now
    expires := PyExpires.pyNone
    last_used := now
    from_cache := true
    encoding := none }

/-- The recursive rebuild of `self._history` in `postprocess` (response.py lines
158-188): each predecessor is wrapped in a fresh `CachedResponse` copying its fields
and then postprocessed with the default `expires=None`, preserving order; each entry's
own `postprocess` call recursively rebuilds that entry's history the same way (lines
151-193 inlined here for the entry). Failure of any read propagates. -/
def postprocessHist (now : Int) : RespList → Option RespList
  | .nil => some .nil
  | .cons (Resp.mk ec ehs) rs =>
    match drainCore none (rebuildCore now ec) with
    | none => none
    | some c1 =>
      match (if ehs.isEmpty then some ehs else postprocessHist now ehs) with
      | none => none
      | some ehs' =>
        match postprocessHist now rs with
        | none => none
        | some rs' =>
          some (RespList.cons
            (Resp.mk { c1 with encoding := some (baseGetEncoding c1.headers) } ehs') rs')

/-- `CachedResponse.postprocess` (response.py lines 143-195) split over (own
attributes, history): drain and freeze the body, record `expires`, rebuild the redirect
history when non-empty (`if self._history:`), and resolve `_encoding` before pickling.
Returns `none` when draining would suspend forever. -/
def postprocessR (now : Int) (e : Option Int) (c : RespCore) (hs : RespList) : Option Resp :=
  match drainCore e c with
  | none => none
  | some c1 =>
    match (if hs.isEmpty then some hs else postprocessHist now hs) with
    | none => none
    | some hs' =>
      some (Resp.mk { c1 with encoding := some (baseGetEncoding c1.headers) } hs')

/-- `postprocess` as an operation on a response object. -/
def Resp.postprocess (now : Int) (e : Option Int) : Resp → Option Resp
  | .mk c hs => postprocessR now e c hs

/-- Model of `bytes.decode('utf-8', 'surrogateescape')` for one byte string as used by
`decode_header` (response.py lines 113-118): total and deterministic — surrogateescape
never fails. Modelled as codepoint-wise decoding. -/
def decodeBytes (bs : List Nat) : String :=
  String.mk (bs.map Char.ofNat)

/-- `decode_header` (response.py lines 113-118): decode one raw `(key, value)` pair. -/
def decode_header (h : List Nat × List Nat) : String × String :=
  (decodeBytes h.1, decodeBytes h.2)

/-- Response.py line 120: rebuild the decoded headers from the raw header byte pairs
(the `CIMultiDict` is modelled as the ordered list of decoded pairs). -/
def decodeHeaders (raw : List (List Nat × List Nat)) : List (String × String) :=
  raw.map decode_header

/-- The serialized record of one response: exactly the attributes `__getstate__`
(response.py lines 92-106) keeps, i.e. the instance dict minus `_request_info`,
`_headers`, `_cache`, `_loop`, `_timer`, `_resolve_charset`, `_protocol`, `_content`
and `_session`. The `_history` entries are serialized structurally in `SerResp` below,
mirroring how pickle recurses into each history element through its own
`__getstate__`. -/
structure SerCore where
  method : String
  url : String
  writer : Option Handle
  continue100 : Option Handle
  traces : List Handle
  created_at : Int
  expires : PyExpires
  last_used : Int
  from_cache : Bool
  raw_headers : List (List Nat × List Nat)
  status : Nat
  body : Option (List Nat)
  closed : Bool
  connection : Option Handle
  version : String
  reason : String
  cookies : String
  released : Bool
  encoding : Option String
deriving DecidableEq

/-- The kept attributes of one response, projected from its runtime state. -/
def serCore (c : RespCore) : SerCore :=
  { method := c.method, url := c.url, writer := c.writer, continue100 := c.continue100,
    traces := c.traces, created_at := c.created_at, expires := c.expires,
    last_used := c.last_used, from_cache := c.from_cache, raw_headers := c.raw_headers,
    status := c.status, body := c.body, closed := c.closed, connection := c.connection,
    version := c.version, reason := c.reason, cookies := c.cookies,
    released := c.released, encoding := c.encoding }

mutual
/-- A serialized response record, with its serialized history. -/
inductive SerResp where
  | mk : SerCore → SerRespList → SerResp
/-- A serialized history tuple. -/
inductive SerRespList where
  | nil : SerRespList
  | cons : SerResp → SerRespList → SerRespList
end

mutual
/-- Serialization of a whole response (`__getstate__`, applied recursively by pickle
to the history entries). -/
def serializeR : Resp → SerResp
  | .mk c hs => SerResp.mk (serCore c) (serializeHist hs)
/-- Pickling the `_history` tuple: each entry is serialized through its own
`__getstate__`, recursively. -/
def serializeHist : RespList → SerRespList
  | .nil => .nil
  | .cons r rs => SerRespList.cons (serializeR r) (serializeHist rs)
end

/-- `CachedResponse.__setstate__` (response.py lines 108-120) applied to one stored
record: restore every serialized attribute, re-create `_cache` as an empty dict, clear
`_content` (so that the `content` property lazily builds a replay stream on first
access), and re-decode `headers` from the raw header bytes. Attributes dropped by
`__getstate__` and not re-created (`_request_info`, `_loop`, `_timer`,
`_resolve_charset`, `_protocol`, `_session`) stay absent. -/
def setstateCore (s : SerCore) : RespCore :=
  { method := s.method, url := s.url, writer := s.writer, continue100 := s.continue100,
    timer := none, request_info_attr := none, traces := s.traces, loop := none,
    session := none, resolve_charset := none, content := none,
    created_at := s.created_at, expires := s.expires, last_used := s.last_used,
    from_cache := s.from_cache, headers := decodeHeaders s.raw_headers,
    raw_headers := s.raw_headers, status := s.status, body := s.body,
    closed := s.closed, protocol := none, connection := s.connection,
    version := s.version, reason := s.reason, cookies := s.cookies,
    released := s.released, encoding := s.encoding }

mutual
/-- Deserialization of a whole stored record back into a response-shaped view. -/
def deserializeR : SerResp → Resp
  | .mk s shs => Resp.mk (setstateCore s) (deserializeHist shs)
/-- Unpickling the serialized history: each entry is rehydrated through its own
`__setstate__`, recursively. -/
def deserializeHist : SerRespList → RespList
  | .nil => .nil
  | .cons r rs => RespList.cons (deserializeR r) (deserializeHist rs)
end

/-- One full re-read of a response: access the `content` property (which lazily
constructs and attaches a replay stream when none is attached, response.py lines
197-201), read the stream to completion, then `reset()` so the next access builds a
fresh stream. -/
def readCycle (c : RespCore) : Option (List Nat) × RespCore :=
  let s := contentProp c
  match s.readAll with
  | none => (none, { c with content := some s })
  | some (bs, s') => (some bs, resetCore { c with content := some s' })

/-- The bytes produced by `n` successive full re-reads (each over a freshly
constructed replay stream, since every cycle ends in a `reset()`). -/
def repeatedReads : Nat → RespCore → List (Option (List Nat))
  | 0, _ => []
  | n + 1, c =>
    let r := readCycle c
    r.1 :: repeatedReads n r.2

/-- A live response state holding body bytes `B`: either the body has already been
read into `_body`, or it is still unread (and unreleased) and `B` is what its content
stream holds (an absent stream reads as empty through the content property). -/
def liveBodyCore (c : RespCore) (B : List Nat) : Prop :=
  c.body = some B ∨
    (c.body = none ∧ c.released = false ∧
      ((∃ s, c.content = some s ∧ s.eof = true ∧ s.buffer = B) ∨
        (c.content = none ∧ B = [])))

/-- A live response holding body bytes `B`. -/
def liveBody (r : Resp) (B : List Nat) : Prop :=
  liveBodyCore r.core B

/-- The bytes that fully draining the response captures: the already-stored body if
any, else the full contents of the current content stream. -/
def captured (c : RespCore) : Option (List Nat) :=
  match c.body with
  | some b => some b
  | none => ((contentProp c).readAll).map Prod.fst

/-- A Python attribute value as it appears in a `CachedResponse.__dict__`, tagged by
whether it is (or can contain) a live runtime handle. `histV` records the length of the
`_history` tuple; the entries themselves are response objects whose own serialized
state is covered by the per-node statements over `subResps`. -/
inductive Attr where
  | handleV : Option Handle → Attr
  | handleListV : List Handle → Attr
  | reqInfoV : Option ReqInfo → Attr
  | strV : String → Attr
  | intV : Int → Attr
  | natV : Nat → Attr
  | boolV : Bool → Attr
  | bytesOptV : Option (List Nat) → Attr
  | rawHeadersV : List (List Nat × List Nat) → Attr
  | headersV : List (String × String) → Attr
  | streamV : Option StreamReader → Attr
  | expiresAttr : PyExpires → Attr
  | cacheDictV : Attr
  | histV : Nat → Attr
deriving DecidableEq

/-- The instance `__dict__` of a `CachedResponse`: the attributes stored by
`CachedResponse.__init__` (response.py lines 35-90, including those the aiohttp base
constructor stores from the forwarded arguments), plus `_encoding` once `postprocess`
has assigned it. -/
def dictOf (c : RespCore) (histLen : Nat) : List (String × Attr) :=
  [("method", Attr.strV c.method),
   ("_url", Attr.strV c.url),
   ("_writer", Attr.handleV c.writer),
   ("_continue", Attr.handleV c.continue100),
   ("_timer", Attr.handleV c.timer),
   ("_request_info", Attr.reqInfoV c.request_info_attr),
   ("_traces", Attr.handleListV c.traces),
   ("_loop", Attr.handleV c.loop),
   ("_session", Attr.handleV c.session),
   ("_cache", Attr.cacheDictV),
   ("_resolve_charset", Attr.handleV c.resolve_charset),
   ("_content", Attr.streamV c.content),
   ("created_at", Attr.intV c.created_at),
   ("expires", Attr.expiresAttr c.expires),
   ("last_used", Attr.intV c.last_used),
   ("from_cache", Attr.boolV c.from_cache),
   ("_headers", Attr.headersV c.headers),
   ("_raw_headers", Attr.rawHeadersV c.raw_headers),
   ("status", Attr.natV c.status),
   ("_history", Attr.histV histLen),
   ("_body", Attr.bytesOptV c.body),
   ("_closed", Attr.boolV c.closed),
   ("_protocol", Attr.handleV c.protocol),
   ("_connection", Attr.handleV c.connection),
   ("version", Attr.strV c.version),
   ("reason", Attr.strV c.reason),
   ("cookies", Attr.strV c.cookies),
   ("_released", Attr.boolV c.released)]
  ++ (match c.encoding with
      | some enc => [("_encoding", Attr.strV enc)]
      | none => [])

/-- Python `del state[k]`: removes the key, failing (KeyError) if it is absent. -/
def pyDel (d : List (String × Attr)) (k : String) : Option (List (String × Attr)) :=
  if d.any (fun kv => kv.1 == k) then some (d.filter (fun kv => kv.1 != k)) else none

/-- The keys `__getstate__` deletes from the copied instance dict (response.py lines
94-105), in source order. -/
def getstateKeys : List String :=
  ["_request_info", "_headers", "_cache", "_loop", "_timer",
   "_resolve_charset", "_protocol", "_content", "_session"]

/-- `CachedResponse.__getstate__` (response.py lines 92-106): copy the instance dict
and delete the transient / re-derivable entries one by one. -/
def getstateD (c : RespCore) (histLen : Nat) : Option (List (String × Attr)) :=
  List.foldlM pyDel (dictOf c histLen) getstateKeys

/-- The entries left in the instance dict after `__getstate__` has deleted its nine
keys, in dict order (proved below to be exactly what `getstateD` produces). -/
def getstateResult (c : RespCore) (histLen : Nat) : List (String × Attr) :=
  [("method", Attr.strV c.method),
   ("_url", Attr.strV c.url),
   ("_writer", Attr.handleV c.writer),
   ("_continue", Attr.handleV c.continue100),
   ("_traces", Attr.handleListV c.traces),
   ("created_at", Attr.intV c.created_at),
   ("expires", Attr.expiresAttr c.expires),
   ("last_used", Attr.intV c.last_used),
   ("from_cache", Attr.boolV c.from_cache),
   ("_raw_headers", Attr.rawHeadersV c.raw_headers),
   ("status", Attr.natV c.status),
   ("_history", Attr.histV histLen),
   ("_body", Attr.bytesOptV c.body),
   ("_closed", Attr.boolV c.closed),
   ("_connection", Attr.handleV c.connection),
   ("version", Attr.strV c.version),
   ("reason", Attr.strV c.reason),
   ("cookies", Attr.strV c.cookies),
   ("_released", Attr.boolV c.released)]
  ++ (match c.encoding with
      | some enc => [("_encoding", Attr.strV enc)]
      | none => [])

/-- Whether an attribute value is free of live runtime handles. -/
def attrTransientFree : Attr → Bool
  | Attr.handleV h => h.isNone
  | Attr.handleListV hs => hs.isEmpty
  | Attr.streamV s => s.isNone
  | _ => true

/-- Whether every value of a serialized state dict is free of live runtime handles. -/
def dictTransientFree (d : List (String × Attr)) : Bool :=
  d.all fun kv => attrTransientFree kv.2

/-- Runtime state a completed aiohttp response is in by the time `postprocess` runs on
it (its docstring requires being called after `ClientSession._request()` has returned):
no Expect-100 future and no tracing callbacks are attached, and if the body has already
been captured (or the response released) then the connection and the writer task have
already been released by aiohttp's EOF handling. For a still-undrained response the
draining performed by `postprocess` itself releases them (see `readStep`). -/
def inputReleasedOK (c : RespCore) : Prop :=
  c.continue100 = none ∧ c.traces = [] ∧
    ((c.body.isSome = true ∨ c.released = true) → c.connection = none ∧ c.writer = none)

/-- A response state that retains no live runtime handle in any kept attribute. -/
def nodeClean (c : RespCore) : Prop :=
  c.connection = none ∧ c.writer = none ∧ c.continue100 = none ∧ c.traces = []

mutual
/-- All response nodes reachable from a response: itself and every (transitive)
history entry. -/
def subResps : Resp → List Resp
  | .mk c hs => Resp.mk c hs :: subRespsList hs
/-- All response nodes reachable from the entries of a history tuple (the entries and,
recursively, their own history entries). -/
def subRespsList : RespList → List Resp
  | .nil => []
  | .cons r rs => subResps r ++ subRespsList rs
end

/-- Induction payload: every way of postprocessing a response whose history is `hs`
clears the `expires` of all (transitively) rebuilt history entries, and records the
given expiration on the top node. -/
def expiresPR (hs : RespList) : Prop :=
  ∀ (now : Int) (e : Option Int) (c : RespCore) (snap : Resp),
    postprocessR now e c hs = some snap →
    snap.core.expires = toExpires e ∧
    ∀ y ∈ subRespsList snap.history, y.core.expires = PyExpires.pyNone

/-- Induction payload: rebuilding the history `hs` clears `expires` on every node of
the result. -/
def expiresPL (hs : RespList) : Prop :=
  ∀ (now : Int) (out : RespList), postprocessHist now hs = some out →
    ∀ y ∈ subRespsList out, y.core.expires = PyExpires.pyNone

/-- Every node reachable from the history `hs` is in the released runtime state. -/
def cleanInputs (hs : RespList) : Prop :=
  ∀ x ∈ subRespsList hs, inputReleasedOK x.core

/-- Induction payload: postprocessing a well-released response whose history is `hs`
leaves every node of the snapshot free of live handles and with `_encoding` set. -/
def cleanPR (hs : RespList) : Prop :=
  ∀ (now : Int) (e : Option Int) (c : RespCore) (snap : Resp),
    inputReleasedOK c → cleanInputs hs → postprocessR now e c hs = some snap →
    ∀ y ∈ subResps snap, nodeClean y.core ∧ y.core.encoding.isSome = true

/-- Induction payload: rebuilding a well-released history leaves every node of the
result free of live handles and with `_encoding` set. -/
def cleanPL (hs : RespList) : Prop :=
  ∀ (now : Int) (out : RespList), cleanInputs hs → postprocessHist now hs = some out →
    ∀ y ∈ subRespsList out, nodeClean y.core ∧ y.core.encoding.isSome = true

/-- Concrete top-level live response state used to evaluate the theorems below: body
already read into `_body`, not yet released, no live handles attached. -/
def wCore : RespCore :=
  { method := "GET", url := "https://example.org/target", writer := none,
    continue100 := none, timer := none, request_info_attr := none, traces := [],
    loop := none, session := none, resolve_charset := none, content := none,
    created_at := 3, expires := PyExpires.pyNone, last_used := 3, from_cache := true,
    headers := [("charset", "latin-1")], raw_headers := [([99], [100])], status := 200,
    body := some [104, 105], closed := true, protocol := none, connection := none,
    version := "1.1", reason := "OK", cookies := "", released := false,
    encoding := none }

/-- Concrete redirect predecessor: body still unread, stream fully fed, connection and
writer still attached (they are released when `postprocess` drains it). -/
def wh1 : RespCore :=
  { method := "GET", url := "https://example.org/hop1", writer := some (Handle.mk 4),
    continue100 := none, timer := none, request_info_attr := none, traces := [],
    loop := none, session := none, resolve_charset := none,
    content := some (StreamReader.mk 2 [3, 4] true), created_at := 1,
    expires := PyExpires.malformed "garbage", last_used := 1, from_cache := false,
    headers := [], raw_headers := [], status := 301, body := none, closed := true,
    protocol := none, connection := some (Handle.mk 3), version := "1.1",
    reason := "Moved Permanently", cookies := "", released := false,
    encoding := none }

/-- Concrete redirect predecessor with an empty body already captured. -/
def wh2 : RespCore :=
  { method := "GET", url := "https://example.org/hop2", writer := none,
    continue100 := none, timer := none, request_info_attr := none, traces := [],
    loop := none, session := none, resolve_charset := none, content := none,
    created_at := 2, expires := PyExpires.pyNone, last_used := 2, from_cache := false,
    headers := [], raw_headers := [], status := 302, body := some [],
    closed := true, protocol := none, connection := none, version := "1.1",
    reason := "Found", cookies := "", released := false, encoding := none }

/-- Concrete nested redirect predecessor (a redirect of a redirect): body captured and
response already released, with a stale `expires` timestamp. -/
def wh3 : RespCore :=
  { method := "GET", url := "https://example.org/hop0", writer := none,
    continue100 := none, timer := none, request_info_attr := none, traces := [],
    loop := none, session := none, resolve_charset := none, content := none,
    created_at := 0, expires := PyExpires.dt 77, last_used := 0, from_cache := false,
    headers := [], raw_headers := [], status := 308, body := some [7], closed := true,
    protocol := none, connection := none, version := "1.1",
    reason := "Permanent Redirect", cookies := "", released := true,
    encoding := none }

/-- The history tuple of the concrete live response: two entries, the first itself
carrying a nested history entry. -/
def wHist : RespList :=
  RespList.cons (Resp.mk wh1 (RespList.cons (Resp.mk wh3 RespList.nil) RespList.nil))
    (RespList.cons (Resp.mk wh2 RespList.nil) RespList.nil)

/-- The concrete live response with its two-entry redirect history. -/
def wLive : Resp :=
  Resp.mk wCore wHist

/-- Expected top-level state of `wLive` after `postprocess` at time 5 with
`expires = 99`. -/
def wCoreOut : RespCore :=
  { wCore with
    content := some (StreamReader.mk 2 [104, 105] true)
    expires := PyExpires.dt 99
    encoding := some "latin-1" }

/-- Expected postprocessed state of the first history entry: its body drained to
`[3, 4]`, its connection and writer released, its content replaced by a replay stream,
its expiration cleared. -/
def wh1Out : RespCore :=
  { wh1 with
    writer := none
    connection := none
    content := some (StreamReader.mk 2 [3, 4] true)
    created_at := 5
    expires := PyExpires.pyNone
    last_used := 5
    from_cache := true
    body := some [3, 4]
    encoding := some "utf-8" }

/-- Expected postprocessed state of the second history entry. -/
def wh2Out : RespCore :=
  { wh2 with
    content := some (StreamReader.mk 0 [] true)
    created_at := 5
    expires := PyExpires.pyNone
    last_used := 5
    from_cache := true
    encoding := some "utf-8" }

/-- Expected postprocessed state of the nested history entry: `expires` reset from its
stale timestamp to None. -/
def wh3Out : RespCore :=
  { wh3 with
    content := some (StreamReader.mk 1 [7] true)
    created_at := 5
    expires := PyExpires.pyNone
    last_used := 5
    from_cache := true
    encoding := some "utf-8" }

/-- The expected snapshot produced by postprocessing `wLive`. -/
def wSnap : Resp :=
  Resp.mk wCoreOut
    (RespList.cons (Resp.mk wh1Out (RespList.cons (Resp.mk wh3Out RespList.nil) RespList.nil))
      (RespList.cons (Resp.mk wh2Out RespList.nil) RespList.nil))

/-! Helper lemmas. -/

theorem orEmptyBytes_some (b : List Nat) : orEmptyBytes (some b) = b := by
  cases b <;> rfl

theorem cachedStreamReader_val (body : Option (List Nat)) :
    CachedStreamReader body =
      StreamReader.mk (orEmptyBytes body).length (orEmptyBytes body) true := rfl

theorem cachedStreamReader_readAll (body : Option (List Nat)) :
    (CachedStreamReader body).readAll =
      some (orEmptyBytes body, StreamReader.mk (orEmptyBytes body).length [] true) := rfl

theorem contentProp_none {c : RespCore} (hc : c.content = none) :
    contentProp c = CachedStreamReader c.body := by
  simp [contentProp, hc]

theorem readCycle_of_none {c : RespCore} (hc : c.content = none) :
    readCycle c =
      (some (orEmptyBytes c.body),
        resetCore
          { c with content := some (StreamReader.mk (orEmptyBytes c.body).length [] true) }) := by
  simp only [readCycle, contentProp_none hc, cachedStreamReader_readAll]

theorem repeatedReads_fresh (k : Nat) :
    ∀ c : RespCore, c.content = none →
      repeatedReads k c = List.replicate k (some (orEmptyBytes c.body)) := by
  induction k with
  | zero => intro c _; rfl
  | succ n ih =>
    intro c hc
    rw [repeatedReads, readCycle_of_none hc, List.replicate_succ]
    exact congrArg (some (orEmptyBytes c.body) :: ·) (ih _ rfl)

theorem repeatedReads_replicate (k : Nat) (c : RespCore) (bs : List Nat)
    (hb : c.body = some bs) (hc : c.content = none) :
    repeatedReads k c = List.replicate k (some bs) := by
  rw [repeatedReads_fresh k c hc, hb, orEmptyBytes_some]

/-! C2 — expiration check. -/

/-- C2: `is_expired` is true exactly when the `expires` field is a set datetime lying
strictly before the current time (a `None` value is never expired), and every failure
mode of the evaluation — a missing `expires` attribute (`AttributeError`) or a
malformed non-datetime value (`TypeError`) — yields `true` (treated as expired) instead
of propagating the exception. -/
theorem is_expired_spec_correct (now t : Int) (m : String) :
    is_expired (some PyExpires.pyNone) now = false ∧
    is_expired (some (PyExpires.dt t)) now = decide (now > t) ∧
    is_expired none now = true ∧
    is_expired (some (PyExpires.malformed m)) now = true ∧
    is_expired_try none now = Except.error "AttributeError" ∧
    is_expired_try (some (PyExpires.malformed m)) now = Except.error "TypeError" :=
  ⟨rfl, rfl, rfl, rfl, rfl, rfl⟩

/-! C5 — replay stream read contract. -/

/-- C5: a freshly constructed replay stream over bytes `b` immediately reports
end-of-data, a full read returns exactly `b` without blocking (the read is `some`, not
a suspension), and any number of reads over freshly constructed instances of the same
snapshot bytes are byte-identical; no operation mutates the snapshot bytes (each read
is a pure function of `b`). -/
theorem cachedStreamReader_replay_contract (b : List Nat) (n : Nat) :
    (CachedStreamReader (some b)).is_eof = true ∧
    (CachedStreamReader (some b)).readAll =
      some (b, StreamReader.mk b.length [] true) ∧
    (List.range n).map (fun _ => freshReadBytes (some b)) =
      List.replicate n (some b) := by
  refine ⟨rfl, ?_, ?_⟩
  · rw [cachedStreamReader_readAll, orEmptyBytes_some]
  · have h1 : freshReadBytes (some b) = some b := by
      simp [freshReadBytes, cachedStreamReader_readAll, orEmptyBytes_some]
    rw [h1, List.map_const', List.length_range]

/-! C6 — replay stream construction is total. -/

/-- C6: constructing a replay stream never raises: every construction step succeeds in
the exception monad, an absent (`None`) body is normalized to the empty byte sequence,
and the resulting stream is a valid stream whose full read is empty. -/
theorem cachedStreamReader_never_raises (body : Option (List Nat)) :
    mkCachedStreamReaderE body = Except.ok (CachedStreamReader body) ∧
    CachedStreamReader none = CachedStreamReader (some []) ∧
    (CachedStreamReader none).readAll = some ([], CachedStreamReader none) := ⟨rfl, rfl, rfl⟩

/-! Serialization view helpers. -/

theorem view_core (c : RespCore) (hs : RespList) :
    (deserializeR (serializeR (Resp.mk c hs))).core = setstateCore (serCore c) := rfl

theorem setstateCore_serCore_body (c : RespCore) :
    (setstateCore (serCore c)).body = c.body := rfl

theorem setstateCore_serCore_content (c : RespCore) :
    (setstateCore (serCore c)).content = none := rfl

theorem deserializeR_core (s : SerCore) (shs : SerRespList) :
    (deserializeR (SerResp.mk s shs)).core = setstateCore s := rfl

set_option maxHeartbeats 2000000 in
theorem getstateD_eq (c : RespCore) (hl : Nat) :
    getstateD c hl = some (getstateResult c hl) := by
  cases henc : c.encoding <;> (simp only [getstateD, dictOf, getstateResult, henc]; rfl)

/-! C8 — lazy content, reset, idempotent re-read. -/

/-- C8: on any rehydrated view the stored stream slot is empty, so the first `content`
access lazily constructs a replay stream from the snapshot body; a read cycle ends in
`reset()`, leaving the slot empty again so the next access builds a new stream; and
reading the full content twice with a reset in between returns identical bytes both
times (the snapshot body bytes). -/
theorem content_lazy_reset_reread (s : SerResp) :
    (deserializeR s).core.content = none ∧
    contentProp (deserializeR s).core = CachedStreamReader (deserializeR s).core.body ∧
    (readCycle (deserializeR s).core).2.content = none ∧
    repeatedReads 2 (deserializeR s).core =
      [some (orEmptyBytes (deserializeR s).core.body),
        some (orEmptyBytes (deserializeR s).core.body)] := by
  obtain ⟨sc, shs⟩ := s
  rw [deserializeR_core]
  refine ⟨rfl, contentProp_none rfl, ?_, ?_⟩
  · rw [readCycle_of_none rfl]; rfl
  · rw [repeatedReads_fresh 2 (setstateCore sc) rfl]
    rfl

/-! C9 — request_info is derived, not stored. -/

/-- C9: the serialized state contains no `_request_info` entry (the key is among those
`__getstate__` deletes), on a rehydrated view the stored `_request_info` attribute is
absent, and the `request_info` accessor is rebuilt on access from the stored method,
URL, and headers of the view. -/
theorem request_info_derived_not_stored (c : RespCore) (hl : Nat) (s : SerResp) :
    (∃ d, getstateD c hl = some d ∧ d.lookup "_request_info" = none) ∧
    (deserializeR s).core.request_info_attr = none ∧
    request_info (deserializeR s).core =
      ReqInfo.mk (deserializeR s).core.url (deserializeR s).core.method
        (deserializeR s).core.headers (deserializeR s).core.url := by
  obtain ⟨sc, shs⟩ := s
  refine ⟨⟨getstateResult c hl, getstateD_eq c hl, ?_⟩, rfl, rfl⟩
  cases henc : c.encoding <;> (simp only [getstateResult, henc]; rfl)

/-! Elimination lemmas for draining and postprocessing. -/

theorem drainCore_elim {e : Option Int} {c c1 : RespCore} (h : drainCore e c = some c1) :
    (c1 = { c with content := some (CachedStreamReader c.body), expires := toExpires e } ∧
      (c.released = true ∨ ∃ b, c.body = some b)) ∨
    (∃ bs s', c.released = false ∧ c.body = none ∧
      (contentProp c).readAll = some (bs, s') ∧
      c1 = { c with
        body := some bs
        content := some (CachedStreamReader (some bs))
        expires := toExpires e
        connection := none
        writer := none }) := by
  rcases Bool.eq_false_or_eq_true c.released with hr | hr
  · left
    have hval : drainCore e c =
        some { c with content := some (CachedStreamReader c.body), expires := toExpires e } := by
      simp [drainCore, hr]
    rw [hval] at h
    injection h with h
    exact ⟨h.symm, Or.inl hr⟩
  · have hbod : c.body = none ∨ ∃ b, c.body = some b := by
      cases c.body
      · exact Or.inl rfl
      · exact Or.inr ⟨_, rfl⟩
    rcases hbod with hb | ⟨b, hb⟩
    · have hread : (contentProp c).readAll = none ∨
          ∃ bs s', (contentProp c).readAll = some (bs, s') := by
        rcases (contentProp c).readAll with - | ⟨bs, s'⟩
        · exact Or.inl rfl
        · exact Or.inr ⟨bs, s', rfl⟩
      rcases hread with hra | ⟨bs, s', hra⟩
      · have hval : drainCore e c = none := by
          simp [drainCore, readStep, hr, hb, hra]
        rw [hval] at h
        cases h
      · right
        have hval : drainCore e c =
            some { c with
              body := some bs
              content := some (CachedStreamReader (some bs))
              expires := toExpires e
              connection := none
              writer := none } := by
          simp [drainCore, readStep, hr, hb, hra]
        rw [hval] at h
        injection h with h
        exact ⟨bs, s', hr, hb, hra, h.symm⟩
    · left
      have hval : drainCore e c =
          some { c with content := some (CachedStreamReader c.body), expires := toExpires e } := by
        simp [drainCore, readStep, hr, hb]
      rw [hval] at h
      injection h with h
      exact ⟨h.symm, Or.inr ⟨b, hb⟩⟩

theorem drainCore_expires {e : Option Int} {c c1 : RespCore} (h : drainCore e c = some c1) :
    c1.expires = toExpires e := by
  rcases drainCore_elim h with ⟨h1, -⟩ | ⟨bs, s', -, -, -, h1⟩ <;> rw [h1]

theorem drainCore_content {e : Option Int} {c c1 : RespCore} (h : drainCore e c = some c1) :
    c1.content = some (CachedStreamReader c1.body) := by
  rcases drainCore_elim h with ⟨h1, -⟩ | ⟨bs, s', -, -, -, h1⟩ <;> rw [h1]

theorem drainCore_liveBody {e : Option Int} {c c1 : RespCore} {B : List Nat}
    (hB : liveBodyCore c B) (h : drainCore e c = some c1) :
    c1.body = some B := by
  rcases drainCore_elim h with ⟨h1, hor⟩ | ⟨bs, s', hrf, hbn, hra, h1⟩
  · rcases hB with hb | ⟨hb, hr, -⟩
    · rw [h1]; exact hb
    · rcases hor with hrt | ⟨b, hbb⟩
      · rw [hr] at hrt; cases hrt
      · rw [hb] at hbb; cases hbb
  · rcases hB with hb | ⟨hb, hr, ⟨s, hcs, heof, hbuf⟩ | ⟨hcn, hBnil⟩⟩
    · rw [hbn] at hb; cases hb
    · have h2 : (contentProp c).readAll = some (B, { s with buffer := [] }) := by
        simp only [contentProp, hcs, StreamReader.readAll, heof, if_true, hbuf]
      rw [h2] at hra
      injection hra with hra
      injection hra with hra1 hra2
      rw [h1, hra1]
    · have h2 : (contentProp c).readAll = some ([], StreamReader.mk 0 [] true) := by
        simp only [contentProp, hcn, hbn, cachedStreamReader_readAll]
        rfl
      rw [h2] at hra
      injection hra with hra
      injection hra with hra1 hra2
      rw [h1, hBnil, hra1]

theorem postprocessR_elim {now : Int} {e : Option Int} {c : RespCore} {hs : RespList}
    {snap : Resp} (h : postprocessR now e c hs = some snap) :
    ∃ c1 hs', drainCore e c = some c1 ∧
      (if hs.isEmpty then some hs else postprocessHist now hs) = some hs' ∧
      snap = Resp.mk { c1 with encoding := some (baseGetEncoding c1.headers) } hs' := by
  cases hd : drainCore e c with
  | none => simp [postprocessR, hd] at h
  | some c1 =>
    cases hh : (if hs.isEmpty then some hs else postprocessHist now hs) with
    | none => simp [postprocessR, hd, hh] at h
    | some hs' =>
      refine ⟨c1, hs', rfl, rfl, ?_⟩
      simp only [postprocessR, hd, hh] at h
      injection h with h
      exact h.symm

/-! C1 — round trip through serialization preserves the body under repeated reads. -/

/-- C1: for a live response holding body bytes `B`, postprocessing it into a snapshot,
serializing, deserializing and rehydrating yields a view whose full content read equals
`B`, for any number `k` of repeated reads, each served by a freshly constructed replay
stream. -/
theorem roundtrip_replay_reads (now : Int) (e : Option Int) (r : Resp) (B : List Nat)
    (snap : Resp) (hB : liveBody r B) (h : Resp.postprocess now e r = some snap)
    (k : Nat) :
    repeatedReads k (deserializeR (serializeR snap)).core = List.replicate k (some B) := by
  obtain ⟨c, hs⟩ := r
  rw [Resp.postprocess] at h
  obtain ⟨c1, hs', hd, hh, hsnap⟩ := postprocessR_elim h
  have hbody : c1.body = some B := drainCore_liveBody hB hd
  subst hsnap
  rw [show serializeR (Resp.mk { c1 with encoding := some (baseGetEncoding c1.headers) } hs') =
    SerResp.mk (serCore { c1 with encoding := some (baseGetEncoding c1.headers) })
      (serializeHist hs') from rfl]
  rw [deserializeR_core]
  exact repeatedReads_replicate k _ B hbody rfl

/-! C3 — postprocess drains, records expiration, and swaps in a replay stream. -/

/-- C3: `postprocess` records the given `expires` value; it reads the body to
completion first whenever the response has not already been drained (`_released`
false), so the snapshot body equals the captured bytes, while an already-released
response keeps its stored body unchanged; and it replaces the response's content
accessor with a replay stream backed by the captured body bytes, so that any holder of
the same response object can re-read the body from the captured bytes without
touching the original transport stream (the replay read never suspends). -/
theorem postprocess_drains_and_freezes (now : Int) (e : Option Int) (c : RespCore)
    (hs : RespList) (snap : Resp) (h : postprocessR now e c hs = some snap) :
    snap.core.expires = toExpires e ∧
    snap.core.content = some (CachedStreamReader snap.core.body) ∧
    (CachedStreamReader snap.core.body).readAll =
      some (orEmptyBytes snap.core.body,
        StreamReader.mk (orEmptyBytes snap.core.body).length [] true) ∧
    (c.released = false → snap.core.body = captured c) ∧
    (c.released = true → snap.core.body = c.body) := by
  obtain ⟨c1, hs', hd, hh, hsnap⟩ := postprocessR_elim h
  subst hsnap
  refine ⟨?_, ?_, ?_, ?_, ?_⟩
  · show c1.expires = toExpires e
    exact drainCore_expires hd
  · show c1.content = some (CachedStreamReader c1.body)
    exact drainCore_content hd
  · show (CachedStreamReader c1.body).readAll = some (orEmptyBytes c1.body,
      StreamReader.mk (orEmptyBytes c1.body).length [] true)
    exact cachedStreamReader_readAll c1.body
  · intro hr
    show c1.body = captured c
    rcases drainCore_elim hd with ⟨h1, hor⟩ | ⟨bs, s', -, hbn, hra, h1⟩
    · rcases hor with hrt | ⟨b, hbb⟩
      · rw [hrt] at hr; cases hr
      · rw [h1]
        show c.body = captured c
        rw [captured, hbb]
    · rw [h1]
      show some bs = captured c
      rw [captured, hbn, hra]
      rfl
  · intro hr
    show c1.body = c.body
    rcases drainCore_elim hd with ⟨h1, -⟩ | ⟨bs, s', hrf, -, -, -⟩
    · rw [h1]
    · rw [hrf] at hr; cases hr

/-! Induction principles for the mutual response type. -/

theorem respListRec {motive : RespList → Prop}
    (hnil : motive RespList.nil)
    (hcons : ∀ r rs, motive rs → motive (RespList.cons r rs)) :
    ∀ hs, motive hs
  | RespList.nil => hnil
  | RespList.cons r rs => hcons r rs (respListRec hnil hcons rs)

mutual
theorem respTreeRecR {motive : Resp → Prop} {motiveL : RespList → Prop}
    (hmk : ∀ c hs, motiveL hs → motive (Resp.mk c hs))
    (hnil : motiveL RespList.nil)
    (hcons : ∀ r rs, motive r → motiveL rs → motiveL (RespList.cons r rs)) :
    ∀ r, motive r
  | Resp.mk c hs => hmk c hs (respTreeRecL hmk hnil hcons hs)
theorem respTreeRecL {motive : Resp → Prop} {motiveL : RespList → Prop}
    (hmk : ∀ c hs, motiveL hs → motive (Resp.mk c hs))
    (hnil : motiveL RespList.nil)
    (hcons : ∀ r rs, motive r → motiveL rs → motiveL (RespList.cons r rs)) :
    ∀ hs, motiveL hs
  | RespList.nil => hnil
  | RespList.cons r rs =>
    hcons r rs (respTreeRecR hmk hnil hcons r) (respTreeRecL hmk hnil hcons rs)
end

/-! Unfolding lemmas for the mutual recursive functions. -/

theorem subResps_mk (c : RespCore) (hs : RespList) :
    subResps (Resp.mk c hs) = Resp.mk c hs :: subRespsList hs := rfl

theorem subRespsList_cons (r : Resp) (rs : RespList) :
    subRespsList (RespList.cons r rs) = subResps r ++ subRespsList rs := rfl

theorem subRespsList_nil : subRespsList RespList.nil = [] := rfl

theorem toList_cons (r : Resp) (rs : RespList) :
    (RespList.cons r rs).toList = r :: rs.toList := rfl

theorem postprocessHist_nil (now : Int) :
    postprocessHist now RespList.nil = some RespList.nil := rfl

theorem postprocessHist_cons (now : Int) (ec : RespCore) (ehs rs : RespList) :
    postprocessHist now (RespList.cons (Resp.mk ec ehs) rs) =
      match postprocessR now none (rebuildCore now ec) ehs with
      | none => none
      | some r' =>
        match postprocessHist now rs with
        | none => none
        | some rs' => some (RespList.cons r' rs') := by
  cases hdr : drainCore none (rebuildCore now ec) with
  | none => simp [postprocessHist, postprocessR, hdr]
  | some c1 =>
    cases hif : (if ehs.isEmpty then some ehs else postprocessHist now ehs) with
    | none => simp [postprocessHist, postprocessR, hdr, hif]
    | some ehs' =>
      cases hrs : postprocessHist now rs with
      | none => simp [postprocessHist, postprocessR, hdr, hif, hrs]
      | some rs' => simp [postprocessHist, postprocessR, hdr, hif, hrs]

/-! Expiration of rebuilt history entries (claim C10 machinery). -/

theorem expiresPR_of_PL {hs : RespList} (hPL : expiresPL hs) : expiresPR hs := by
  intro now e c snap h
  obtain ⟨c1, hs', hd, hh, hsnap⟩ := postprocessR_elim h
  subst hsnap
  constructor
  · show c1.expires = toExpires e
    exact drainCore_expires hd
  · show ∀ y ∈ subRespsList hs', y.core.expires = PyExpires.pyNone
    cases hs with
    | nil =>
      simp [RespList.isEmpty] at hh
      subst hh
      intro y hy
      rw [subRespsList_nil] at hy
      exact absurd hy (List.not_mem_nil y)
    | cons a as =>
      have hh' : postprocessHist now (RespList.cons a as) = some hs' := by
        simpa [RespList.isEmpty] using hh
      exact hPL now hs' hh'

theorem expires_both : ∀ hs : RespList, expiresPR hs ∧ expiresPL hs := by
  refine respTreeRecL (motive := fun r => expiresPR r.history) ?_ ?_ ?_
  · intro c hs ih
    exact ih.1
  · constructor
    · apply expiresPR_of_PL
      intro now out h
      rw [postprocessHist_nil] at h
      injection h with h
      subst h
      intro y hy
      rw [subRespsList_nil] at hy
      exact absurd hy (List.not_mem_nil y)
    · intro now out h
      rw [postprocessHist_nil] at h
      injection h with h
      subst h
      intro y hy
      rw [subRespsList_nil] at hy
      exact absurd hy (List.not_mem_nil y)
  · intro r rs ihr ihrs
    obtain ⟨ec, ehs⟩ := r
    have hPL : expiresPL (RespList.cons (Resp.mk ec ehs) rs) := by
      intro now out h
      rw [postprocessHist_cons] at h
      cases hR : postprocessR now none (rebuildCore now ec) ehs with
      | none => simp only [hR] at h; exact Option.noConfusion h
      | some r' =>
        cases hT : postprocessHist now rs with
        | none => simp only [hR, hT] at h; exact Option.noConfusion h
        | some rs' =>
          simp only [hR, hT] at h
          injection h with h
          subst h
          intro y hy
          rw [subRespsList_cons, List.mem_append] at hy
          obtain ⟨rc, rhs⟩ := r'
          rcases hy with hy1 | hy2
          · rw [subResps_mk, List.mem_cons] at hy1
            rcases hy1 with rfl | hy1
            · exact (ihr now none (rebuildCore now ec) (Resp.mk rc rhs) hR).1
            · exact (ihr now none (rebuildCore now ec) (Resp.mk rc rhs) hR).2 y hy1
          · exact ihrs.2 now rs' hT y hy2
    exact ⟨expiresPR_of_PL hPL, hPL⟩

/-! C10 — recursively rebuilt history entries carry no expiration. -/

/-- C10: for any response postprocessed with any `expires` value, every (transitively)
rebuilt entry of the snapshot's redirect history has `expires = None` — the recursive
rebuild passes no expiration — and so no history entry is ever time-expired, at any
evaluation time. -/
theorem history_entries_never_expire (now : Int) (e : Option Int) (c : RespCore)
    (hs : RespList) (snap : Resp) (h : postprocessR now e c hs = some snap) :
    ∀ y ∈ subRespsList snap.history,
      y.core.expires = PyExpires.pyNone ∧
      ∀ t : Int, is_expired (some y.core.expires) t = false := by
  intro y hy
  have h1 := ((expires_both hs).1 now e c snap h).2 y hy
  refine ⟨h1, ?_⟩
  intro t
  rw [h1]
  rfl

/-! Absence of live handles in serialized state (claim C4 machinery). -/

theorem rebuildCore_inputOK {c : RespCore} (now : Int) (hok : inputReleasedOK c) :
    inputReleasedOK (rebuildCore now c) := hok

theorem drainCore_clean {e : Option Int} {c c1 : RespCore}
    (hok : inputReleasedOK c) (h : drainCore e c = some c1) : nodeClean c1 := by
  obtain ⟨hcont, htr, himp⟩ := hok
  rcases drainCore_elim h with ⟨h1, hor⟩ | ⟨bs, s', -, -, -, h1⟩
  · have hcw : c.connection = none ∧ c.writer = none := by
      apply himp
      rcases hor with hrt | ⟨b, hb⟩
      · exact Or.inr hrt
      · exact Or.inl (by rw [hb]; rfl)
    rw [h1]
    exact ⟨hcw.1, hcw.2, hcont, htr⟩
  · rw [h1]
    exact ⟨rfl, rfl, hcont, htr⟩

theorem cleanInputs_cons {r : Resp} {rs : RespList}
    (h : cleanInputs (RespList.cons r rs)) :
    inputReleasedOK r.core ∧ cleanInputs r.history ∧ cleanInputs rs := by
  obtain ⟨rc, rhs⟩ := r
  refine ⟨h _ ?_, ?_, ?_⟩
  · rw [subRespsList_cons, List.mem_append]
    exact Or.inl (by rw [subResps_mk]; exact List.mem_cons_self _ _)
  · intro x hx
    apply h
    rw [subRespsList_cons, List.mem_append]
    exact Or.inl (by rw [subResps_mk]; exact List.mem_cons_of_mem _ hx)
  · intro x hx
    apply h
    rw [subRespsList_cons, List.mem_append]
    exact Or.inr hx

theorem cleanPR_of_PL {hs : RespList} (hPL : cleanPL hs) : cleanPR hs := by
  intro now e c snap hokc hins h
  obtain ⟨c1, hs', hd, hh, hsnap⟩ := postprocessR_elim h
  subst hsnap
  have hclean : nodeClean c1 := drainCore_clean hokc hd
  intro y hy
  rw [subResps_mk, List.mem_cons] at hy
  rcases hy with rfl | hy
  · exact ⟨hclean, rfl⟩
  · cases hs with
    | nil =>
      simp [RespList.isEmpty] at hh
      subst hh
      rw [subRespsList_nil] at hy
      exact absurd hy (List.not_mem_nil y)
    | cons a as =>
      have hh' : postprocessHist now (RespList.cons a as) = some hs' := by
        simpa [RespList.isEmpty] using hh
      exact hPL now hs' hins hh' y hy

theorem clean_both : ∀ hs : RespList, cleanPR hs ∧ cleanPL hs := by
  refine respTreeRecL (motive := fun r => cleanPR r.history) ?_ ?_ ?_
  · intro c hs ih
    exact ih.1
  · have hPL : cleanPL RespList.nil := by
      intro now out _ h
      rw [postprocessHist_nil] at h
      injection h with h
      subst h
      intro y hy
      rw [subRespsList_nil] at hy
      exact absurd hy (List.not_mem_nil y)
    exact ⟨cleanPR_of_PL hPL, hPL⟩
  · intro r rs ihr ihrs
    obtain ⟨ec, ehs⟩ := r
    have hPL : cleanPL (RespList.cons (Resp.mk ec ehs) rs) := by
      intro now out hins h
      obtain ⟨hokh, hinsh, hinst⟩ := cleanInputs_cons hins
      rw [postprocessHist_cons] at h
      cases hR : postprocessR now none (rebuildCore now ec) ehs with
      | none => simp only [hR] at h; exact Option.noConfusion h
      | some r' =>
        cases hT : postprocessHist now rs with
        | none => simp only [hR, hT] at h; exact Option.noConfusion h
        | some rs' =>
          simp only [hR, hT] at h
          injection h with h
          subst h
          intro y hy
          rw [subRespsList_cons, List.mem_append] at hy
          rcases hy with hy1 | hy2
          · exact ihr now none (rebuildCore now ec) r'
              (rebuildCore_inputOK now hokh) hinsh hR y hy1
          · exact ihrs.2 now rs' hinst hT y hy2
    exact ⟨cleanPR_of_PL hPL, hPL⟩

set_option maxHeartbeats 2000000 in
theorem getstate_clean_dict (c : RespCore) (hl : Nat) (enc : String)
    (hcl : nodeClean c) (henc : c.encoding = some enc) :
    ∃ d, getstateD c hl = some d ∧ dictTransientFree d = true ∧
      ∀ k ∈ getstateKeys, d.lookup k = none := by
  obtain ⟨h1, h2, h3, h4⟩ := hcl
  refine ⟨getstateResult c hl, getstateD_eq c hl, ?_, ?_⟩
  · simp only [getstateResult, henc, h1, h2, h3, h4]
    rfl
  · intro k hk
    simp only [getstateKeys, List.mem_cons, List.not_mem_nil, or_false] at hk
    rcases hk with rfl | rfl | rfl | rfl | rfl | rfl | rfl | rfl | rfl <;>
      (simp only [getstateResult, henc]; rfl)

/-! C4 — serialized state holds no transport, event-loop, or connection handles. -/

/-- C4: for every snapshot produced by `postprocess` from a live response whose nodes
are in the released runtime state aiohttp leaves a completed response in, the
serialized state of every node of the snapshot exists (every deleted key was present),
contains no live transport / event-loop / connection handle in any retained value, and
contains none of the nine excluded keys — whose values (request info, decoded headers,
per-instance cache, loop, timer, charset resolver, protocol, content stream, session)
are the ones that cannot be reconstructed without live objects and are instead
recomputed lazily after deserialization. -/
theorem getstate_excludes_transient_handles (now : Int) (e : Option Int) (c : RespCore)
    (hs : RespList) (snap : Resp)
    (hwf : ∀ x ∈ subResps (Resp.mk c hs), inputReleasedOK x.core)
    (h : postprocessR now e c hs = some snap) :
    ∀ y ∈ subResps snap, ∃ d,
      getstateD y.core y.history.toList.length = some d ∧
      dictTransientFree d = true ∧
      ∀ k ∈ getstateKeys, d.lookup k = none := by
  have hokc : inputReleasedOK c :=
    hwf (Resp.mk c hs) (by rw [subResps_mk]; exact List.mem_cons_self _ _)
  have hins : cleanInputs hs := by
    intro x hx
    apply hwf
    rw [subResps_mk]
    exact List.mem_cons_of_mem _ hx
  intro y hy
  obtain ⟨hclean, hencs⟩ := (clean_both hs).1 now e c snap hokc hins h y hy
  obtain ⟨enc, henc⟩ := Option.isSome_iff_exists.mp hencs
  exact getstate_clean_dict y.core _ enc hclean henc

/-! Redirect-history rebuild fidelity (claim C7 machinery). -/

theorem drainCore_body_isSome {e : Option Int} {c c1 : RespCore}
    (hc : c.body.isSome = true ∨ c.released = false) (h : drainCore e c = some c1) :
    ∃ bs, c1.body = some bs := by
  rcases drainCore_elim h with ⟨h1, hor⟩ | ⟨bs, s', -, -, -, h1⟩
  · rcases hor with hrt | ⟨b, hb⟩
    · rcases hc with hbs | hrf
      · obtain ⟨b, hb⟩ := Option.isSome_iff_exists.mp hbs
        exact ⟨b, by rw [h1]; exact hb⟩
      · rw [hrt] at hrf
        cases hrf
    · exact ⟨b, by rw [h1]; exact hb⟩
  · exact ⟨bs, by rw [h1]⟩

theorem postprocessHist_fidelity :
    ∀ hs : RespList, ∀ (now : Int) (out : RespList),
      (∀ x ∈ hs.toList, x.core.body.isSome = true ∨ x.core.released = false) →
      postprocessHist now hs = some out →
      out.toList.length = hs.toList.length ∧
      (∀ i : Nat, out.toList[i]? = (hs.toList[i]?).bind
        (fun p => postprocessR now none (rebuildCore now p.core) p.history)) ∧
      (∀ p ∈ out.toList, ∃ bs, p.core.body = some bs) := by
  refine respListRec ?_ ?_
  · intro now out _ h
    rw [postprocessHist_nil] at h
    injection h with h
    subst h
    refine ⟨rfl, ?_, ?_⟩
    · intro i
      simp [RespList.toList]
    · intro p hp
      exact absurd hp (List.not_mem_nil p)
  · intro r rs ih now out hb h
    obtain ⟨ec, ehs⟩ := r
    rw [postprocessHist_cons] at h
    cases hR : postprocessR now none (rebuildCore now ec) ehs with
    | none => simp only [hR] at h; exact Option.noConfusion h
    | some r' =>
      cases hT : postprocessHist now rs with
      | none => simp only [hR, hT] at h; exact Option.noConfusion h
      | some rs' =>
        simp only [hR, hT] at h
        injection h with h
        subst h
        have hbtail : ∀ x ∈ rs.toList, x.core.body.isSome = true ∨ x.core.released = false := by
          intro x hx
          exact hb x (by rw [toList_cons]; exact List.mem_cons_of_mem _ hx)
        obtain ⟨ihl, ihi, ihb⟩ := ih now rs' hbtail hT
        refine ⟨?_, ?_, ?_⟩
        · rw [toList_cons, toList_cons, List.length_cons, List.length_cons, ihl]
        · intro i
          cases i with
          | zero =>
            simp only [toList_cons, List.getElem?_cons_zero, Option.some_bind]
            exact hR.symm
          | succ n =>
            simp only [toList_cons, List.getElem?_cons_succ]
            exact ihi n
        · intro p hp
          rw [toList_cons, List.mem_cons] at hp
          rcases hp with rfl | hp
          · obtain ⟨c1, ehs', hd, hh, hsnap⟩ := postprocessR_elim hR
            have hbhead : ec.body.isSome = true ∨ ec.released = false :=
              hb (Resp.mk ec ehs) (by rw [toList_cons]; exact List.mem_cons_self _ _)
            obtain ⟨bs, hbs⟩ := drainCore_body_isSome (c := rebuildCore now ec) hbhead hd
            refine ⟨bs, ?_⟩
            rw [hsnap]
            exact hbs
          · exact ihb p hp

/-! C7 — history entries: same count, same order, same build procedure,
independently replayable. -/

/-- C7: postprocessing a live response whose history has `n` entries (each already
drained or still unreleased) yields a snapshot whose history has exactly `n` entries;
entry `i` of the snapshot history is exactly the result of applying the same build
procedure (fresh `CachedResponse` copy, then `postprocess` with no expiration) to the
corresponding predecessor, preserving order; and each entry is independently
round-trippable and replayable: serializing and deserializing the entry alone yields a
view whose repeated full reads all return the entry's captured body bytes. -/
theorem history_rebuild_fidelity (now : Int) (e : Option Int) (c : RespCore)
    (hs : RespList) (snap : Resp)
    (hbody : ∀ x ∈ hs.toList, x.core.body.isSome = true ∨ x.core.released = false)
    (h : postprocessR now e c hs = some snap) :
    snap.history.toList.length = hs.toList.length ∧
    (∀ i : Nat, snap.history.toList[i]? = (hs.toList[i]?).bind
      (fun p => postprocessR now none (rebuildCore now p.core) p.history)) ∧
    (∀ p ∈ snap.history.toList, ∃ bs, p.core.body = some bs ∧
      ∀ k : Nat, repeatedReads k (deserializeR (serializeR p)).core =
        List.replicate k (some bs)) := by
  obtain ⟨c1, hs', hd, hh, hsnap⟩ := postprocessR_elim h
  subst hsnap
  have hmain : hs'.toList.length = hs.toList.length ∧
      (∀ i : Nat, hs'.toList[i]? = (hs.toList[i]?).bind
        (fun p => postprocessR now none (rebuildCore now p.core) p.history)) ∧
      (∀ p ∈ hs'.toList, ∃ bs, p.core.body = some bs) := by
    cases hs with
    | nil =>
      simp [RespList.isEmpty] at hh
      subst hh
      refine ⟨rfl, ?_, ?_⟩
      · intro i
        simp [RespList.toList]
      · intro p hp
        exact absurd hp (List.not_mem_nil p)
    | cons a as =>
      have hh' : postprocessHist now (RespList.cons a as) = some hs' := by
        simpa [RespList.isEmpty] using hh
      exact postprocessHist_fidelity (RespList.cons a as) now hs' hbody hh'
  obtain ⟨hl, hi, hbod⟩ := hmain
  refine ⟨hl, hi, ?_⟩
  intro p hp
  obtain ⟨bs, hbs⟩ := hbod p hp
  refine ⟨bs, hbs, ?_⟩
  intro k
  obtain ⟨pc, phs⟩ := p
  rw [show serializeR (Resp.mk pc phs) = SerResp.mk (serCore pc) (serializeHist phs) from rfl]
  rw [deserializeR_core]
  exact repeatedReads_replicate k _ bs hbs rfl

/-! Witnesses: the hypothesis-bearing claim theorems evaluated at the concrete
response `wLive` (body `[104, 105]`, two-entry redirect history with one nested
entry), postprocessed at time 5 with `expires = 99`. -/

theorem wLive_wf : ∀ x ∈ subResps wLive, inputReleasedOK x.core := by
  intro x hx
  rw [show subResps wLive =
    [wLive, Resp.mk wh1 (RespList.cons (Resp.mk wh3 RespList.nil) RespList.nil),
      Resp.mk wh3 RespList.nil, Resp.mk wh2 RespList.nil] from rfl] at hx
  simp only [List.mem_cons, List.not_mem_nil, or_false] at hx
  rcases hx with rfl | rfl | rfl | rfl
  · exact ⟨rfl, rfl, fun _ => ⟨rfl, rfl⟩⟩
  · refine ⟨rfl, rfl, fun h => ?_⟩
    rcases h with h | h <;> cases h
  · exact ⟨rfl, rfl, fun _ => ⟨rfl, rfl⟩⟩
  · exact ⟨rfl, rfl, fun _ => ⟨rfl, rfl⟩⟩

theorem wHist_bodies :
    ∀ x ∈ wHist.toList, x.core.body.isSome = true ∨ x.core.released = false := by
  intro x hx
  rw [show wHist.toList =
    [Resp.mk wh1 (RespList.cons (Resp.mk wh3 RespList.nil) RespList.nil),
      Resp.mk wh2 RespList.nil] from rfl] at hx
  simp only [List.mem_cons, List.not_mem_nil, or_false] at hx
  rcases hx with rfl | rfl
  · exact Or.inr rfl
  · exact Or.inl rfl

theorem roundtrip_replay_reads_witness :
    liveBody wLive [104, 105] ∧
    Resp.postprocess 5 (some 99) wLive = some wSnap ∧
    repeatedReads 3 (deserializeR (serializeR wSnap)).core =
      List.replicate 3 (some [104, 105]) :=
  ⟨Or.inl rfl, rfl,
    roundtrip_replay_reads 5 (some 99) wLive [104, 105] wSnap (Or.inl rfl) rfl 3⟩

theorem postprocess_drains_and_freezes_witness :
    postprocessR 5 (some 99) wCore wHist = some wSnap ∧
    (wSnap.core.expires = toExpires (some 99) ∧
      wSnap.core.content = some (CachedStreamReader wSnap.core.body) ∧
      (CachedStreamReader wSnap.core.body).readAll =
        some (orEmptyBytes wSnap.core.body,
          StreamReader.mk (orEmptyBytes wSnap.core.body).length [] true) ∧
      (wCore.released = false → wSnap.core.body = captured wCore) ∧
      (wCore.released = true → wSnap.core.body = wCore.body)) :=
  ⟨rfl, postprocess_drains_and_freezes 5 (some 99) wCore wHist wSnap rfl⟩

theorem getstate_excludes_transient_handles_witness :
    (∀ x ∈ subResps wLive, inputReleasedOK x.core) ∧
    postprocessR 5 (some 99) wCore wHist = some wSnap ∧
    ∀ y ∈ subResps wSnap, ∃ d,
      getstateD y.core y.history.toList.length = some d ∧
      dictTransientFree d = true ∧
      ∀ k ∈ getstateKeys, d.lookup k = none :=
  ⟨wLive_wf, rfl,
    getstate_excludes_transient_handles 5 (some 99) wCore wHist wSnap wLive_wf rfl⟩

theorem history_rebuild_fidelity_witness :
    (∀ x ∈ wHist.toList, x.core.body.isSome = true ∨ x.core.released = false) ∧
    postprocessR 5 (some 99) wCore wHist = some wSnap ∧
    (wSnap.history.toList.length = wHist.toList.length ∧
      (∀ i : Nat, wSnap.history.toList[i]? = (wHist.toList[i]?).bind
        (fun p => postprocessR 5 none (rebuildCore 5 p.core) p.history)) ∧
      (∀ p ∈ wSnap.history.toList, ∃ bs, p.core.body = some bs ∧
        ∀ k : Nat, repeatedReads k (deserializeR (serializeR p)).core =
          List.replicate k (some bs))) :=
  ⟨wHist_bodies, rfl,
    history_rebuild_fidelity 5 (some 99) wCore wHist wSnap wHist_bodies rfl⟩

theorem history_entries_never_expire_witness :
    postprocessR 5 (some 99) wCore wHist = some wSnap ∧
    ∀ y ∈ subRespsList wSnap.history,
      y.core.expires = PyExpires.pyNone ∧
      ∀ t : Int, is_expired (some y.core.expires) t = false :=
  ⟨rfl, history_entries_never_expire 5 (some 99) wCore wHist wSnap rfl⟩

end AiohttpClientCache
